import Mathlib

/-!
Verification development for the habit-tracker ingestion-and-reconciliation
pipeline (src/Code.js).  The definitions below are a shallow embedding of the
functions of that file: `parseMmDdYyyy`, `findFirstDateMatch`, `getType`,
`doPost`'s image normalization, `callGemini`'s response handling and fence
stripping, and `updateSheet`.  Host services (the spreadsheet store, the text
finder, the HTTP transport) are external collaborators of the repository and
are modelled behind the narrow interfaces the spec describes for them.
-/

/-! ## Dates and cells -/

/-- Model of a JS `Date` carrying calendar-normalized components: year,
month (0-based, as in `new Date(y, m, d)`), day of month, and milliseconds
past local midnight.  `getTime()` equality of two component-normalized dates
is modelled as structural equality. -/
structure JSDate where
  y : Int
  m : Int
  d : Int
  ms : Int
deriving DecidableEq, Repr

/-- Model of `d.setHours(0, 0, 0, 0)`: the time-of-day is zeroed, the calendar
day is kept. -/
def setHoursZero (x : JSDate) : JSDate := ⟨x.y, x.m, x.d, 0⟩

/-- A spreadsheet cell value: blank, a number, a text, or a date.  Only
`date` cells satisfy `v instanceof Date` in `findFirstDateMatch`. -/
inductive CellVal where
  | empty
  | num (n : Int)
  | str (s : String)
  | date (d : JSDate)
deriving DecidableEq, Repr

def cellNonEmpty : CellVal → Bool
  | CellVal.empty => false
  | _ => true

/-- The destination sheet contents: a row-major grid of cells. -/
abbrev Grid := List (List CellVal)

/-- Cell of a row at 0-based column `c` (blank outside the populated range). -/
def cellAtRow (row : List CellVal) (c : Nat) : CellVal :=
  (row[c]?).getD CellVal.empty

/-- Cell of a grid at 0-based row `r`, column `c` (blank outside the populated
range). -/
def cellAt (g : Grid) (r c : Nat) : CellVal :=
  cellAtRow ((g[r]?).getD []) c

/-- The per-cell test of `findFirstDateMatch` (src/Code.js lines 156-159):
the cell is a `Date` and, after both sides are normalized to midnight, its
timestamp equals the target's.  A `none` target models an Invalid Date, whose
`NaN` timestamp compares unequal to everything. -/
def cellHitsTarget (v : CellVal) (t : Option JSDate) : Bool :=
  match v, t with
  | CellVal.date dv, some td => decide (setHoursZero dv = setHoursZero td)
  | _, _ => false

/-- Whether the grid cell at 0-based `(r, c)` matches the target date at day
granularity. -/
def matchesAt (g : Grid) (t : Option JSDate) (r c : Nat) : Bool :=
  cellHitsTarget (cellAt g r c) t

/-- Inner loop of `findFirstDateMatch` (src/Code.js lines 154-163): 0-based
column of the first matching cell of one row. -/
def findRowIdx (t : Option JSDate) : List CellVal → Option Nat
  | [] => none
  | v :: rest =>
    if cellHitsTarget v t then some 0
    else (findRowIdx t rest).map (· + 1)

/-- Outer loop of `findFirstDateMatch`: 0-based (row, column) of the first
matching cell in row-major order. -/
def findGrid (t : Option JSDate) : Grid → Option (Nat × Nat)
  | [] => none
  | row :: rest =>
    match findRowIdx t row with
    | some c => some (0, c)
    | none => (findGrid t rest).map (fun p => (p.1 + 1, p.2))

/-- Model of `findFirstDateMatch` (src/Code.js lines 145-167): scan the data
range row-major for the first cell whose date equals the target at day
granularity and return its 1-based coordinates (`{row: r + 1, column: c + 1}`),
or `null`. -/
def findFirstDateMatch (g : Grid) (t : Option JSDate) : Option (Nat × Nat) :=
  (findGrid t g).map (fun p => (p.1 + 1, p.2 + 1))

/-- Model of JS `str.split('/')`: the list of chunks between slashes (an
empty string splits to one empty chunk, as in JS). -/
def splitOnSlash : List Char → List (List Char)
  | [] => [[]]
  | c :: rest =>
    if c == '/' then [] :: splitOnSlash rest
    else
      match splitOnSlash rest with
      | chunk :: more => (c :: chunk) :: more
      | [] => [[c]]

/-- Model of JS `Number` on the decimal-digit parts an MM/DD/YYYY string
supplies (`none` models `NaN` for an empty or non-digit part). -/
def digitsToNat (l : List Char) : Option Nat :=
  if !l.isEmpty && l.all Char.isDigit then
    some (l.foldl (fun acc c => acc * 10 + (c.toNat - 48)) 0)
  else none

/-- Model of `parseMmDdYyyy` (src/Code.js lines 137-140):
`str.split('/').map(Number)` destructured to `[mm, dd, yyyy]`, then
`new Date(yyyy, mm - 1, dd)`.  A missing or non-numeric part gives `NaN` and
hence an Invalid Date, modelled as `none`. -/
def parseMmDdYyyy (s : String) : Option JSDate :=
  match (splitOnSlash s.toList).map digitsToNat with
  | some mm :: some dd :: some yyyy :: _ =>
    some ⟨(yyyy : Int), (mm : Int) - 1, (dd : Int), 0⟩
  | _ => none

/-! ## Sheet geometry and writes -/

def rowNonEmpty (row : List CellVal) : Bool := row.any cellNonEmpty

/-- Model of `sheet.getLastRow()`: the 1-based position of the last row that
has content, `0` for an all-blank sheet. -/
def getLastRow : Grid → Nat
  | [] => 0
  | row :: rest =>
    let l := getLastRow rest
    if l ≠ 0 then l + 1 else if rowNonEmpty row then 1 else 0

/-- Write `v` at 0-based column `c` of a row, extending the row with blanks if
it is shorter (the sheet store grows on demand). -/
def setInRow : Nat → List CellVal → CellVal → List CellVal
  | 0, [], v => [v]
  | 0, _ :: rest, v => v :: rest
  | n + 1, [], v => CellVal.empty :: setInRow n [] v
  | n + 1, x :: rest, v => x :: setInRow n rest v

/-- Write `v` at 0-based `(r, c)` of a grid, extending with blank rows if
needed. -/
def setCellG : Nat → Grid → Nat → CellVal → Grid
  | 0, [], c, v => [setInRow c [] v]
  | 0, row :: rest, c, v => setInRow c row v :: rest
  | r + 1, [], c, v => [] :: setCellG r [] c v
  | r + 1, row :: rest, c, v => row :: setCellG r rest c v

/-- Model of a one-row `setValues` write: place the cells of `vs` left to
right starting at 0-based `(r, c)`. -/
def setCellsFrom : Grid → Nat → Nat → List CellVal → Grid
  | g, _, _, [] => g
  | g, r, c, v :: rest => setCellsFrom (setCellG r g c v) r (c + 1) rest

/-! ## Extraction result data -/

/-- One element of a `HabitEntry.values` array: per the ExtractionResult
contract each element is a number or `null`. -/
inductive JVal where
  | jnum (n : Int)
  | jnull
deriving DecidableEq, Repr

/-- How a one-row `setValues` write stores a JSON value: a number becomes a
numeric cell, `null` clears the cell. -/
def cellOfJVal : JVal → CellVal
  | JVal.jnum n => CellVal.num n
  | JVal.jnull => CellVal.empty

/-- One extracted habit record (`{habit, values}`); `values` is `none` when
the field is absent, which the code replaces by `[]` via `item.values || []`. -/
structure HabitEntry where
  habit : String
  values : Option (List JVal)
deriving DecidableEq, Repr

/-- The parsed model output consumed by `updateSheet`
(`{week_start_date, data}`); `week_start_date` is `none` when absent. -/
structure ExtractionData where
  week_start_date : Option String
  data : List HabitEntry
deriving DecidableEq, Repr

/-- The destination sheet: its tab name and cell grid. -/
structure Sheet where
  name : String
  grid : Grid
deriving DecidableEq, Repr

/-- The value-window transform of `updateSheet` (src/Code.js lines 451-453):
`let rowValues = item.values || []`, truncate to the first 7 if longer, then
`while (rowValues.length < 7) rowValues.push(null)` (appending nulls). -/
def clampValuesTo7 (values : Option (List JVal)) : List JVal :=
  let rowValues := values.getD []
  let rowValues := if rowValues.length > 7 then rowValues.take 7 else rowValues
  rowValues ++ List.replicate (7 - rowValues.length) JVal.jnull

/-- Modelled from the spec: the host table-store find-in-range collaborator
(`searchRange.createTextFinder(item.habit).findNext()` on the one-column
search range of src/Code.js lines 443-447).  The spec describes it as an
exact-text lookup of the habit name within the window, the first match in the
range order winning.  `startRow` is 1-based; `count` rows are scanned; the
window is restricted to the label column (column 1). -/
def findHabitRow (g : Grid) (habit : String) : Nat → Nat → Option Nat
  | _, 0 => none
  | startRow, n + 1 =>
    if cellAt g (startRow - 1) 0 = CellVal.str habit then some startRow
    else findHabitRow g habit (startRow + 1) n

/-- Body of the `data.data.forEach` loop of `updateSheet` (src/Code.js lines
445-458): look the habit label up in the fixed window; on a match write the
clamped 7-value list into columns C-I (`getRange(r, 3, 1, 7).setValues`) of
the matched row and count the update; otherwise leave the accumulator
unchanged. -/
def applyEntry (startRow lastRow : Nat) (acc : Grid × Nat) (item : HabitEntry) :
    Grid × Nat :=
  match findHabitRow acc.1 item.habit startRow (lastRow - startRow + 1) with
  | none => acc
  | some r =>
    (setCellsFrom acc.1 (r - 1) 2 ((clampValuesTo7 item.values).map cellOfJVal),
     acc.2 + 1)

/-- Model of `updateSheet` (src/Code.js lines 413-461).  Thrown errors are
`Except.error`; normal returns carry the (possibly updated) sheet and the
result string.  The `week_start_date` check is the truthiness test
`if (!data.week_start_date)`, so an absent or empty string both throw.  The
thrown messages keep the leading fixed text of the source (the appended
`JSON.stringify` dump is not modelled). -/
def updateSheet (sheet : Sheet) (d : Option ExtractionData) :
    Except String (Sheet × String) :=
  match d with
  | none => Except.error "updateSheet error: data object is null/undefined."
  | some data =>
    match data.week_start_date with
    | none => Except.error "updateSheet error: week_start_date is missing."
    | some wsd =>
      if wsd = "" then
        Except.error "updateSheet error: week_start_date is missing."
      else
        match findFirstDateMatch sheet.grid (parseMmDdYyyy wsd) with
        | none =>
          Except.ok (sheet,
            "Error: Could not find week starting " ++ wsd ++ " in sheet \x22"
              ++ sheet.name ++ "\x22.")
        | some rc =>
          let startRow := rc.1
          let lastRow := getLastRow sheet.grid
          let res := data.data.foldl (applyEntry startRow lastRow) (sheet.grid, 0)
          Except.ok ({ sheet with grid := res.1 },
            "Success! Updated " ++ toString res.2 ++ " habits for week of " ++ wsd)

/-! ## Strings: JS whitespace, trim, fence stripping -/

/-- JS regex `\s` and `String.prototype.trim` whitespace, restricted to the
ASCII range (the Unicode spaces play no role in this development). -/
def isJsWs (ch : Char) : Bool :=
  ch == ' ' || ch == '\t' || ch == '\n' || ch == '\r' || ch == '\x0b' || ch == '\x0c'

/-- The backtick character. -/
def btick : Char := Char.ofNat 96

def trimLeftL (l : List Char) : List Char := l.dropWhile isJsWs

def trimRightL (l : List Char) : List Char := (l.reverse.dropWhile isJsWs).reverse

/-- Model of JS `String.prototype.trim` on a character list. -/
def jsTrimL (l : List Char) : List Char := trimRightL (trimLeftL l)

def jsTrim (s : String) : String := String.mk (jsTrimL s.toList)

/-- Model of `.replace(/^```json\s*/i, '')` (src/Code.js line 400): if the
text starts with three backticks followed by `json` (case-insensitively),
drop them and the following whitespace run; otherwise leave the text as is. -/
def stripFenceJson (l : List Char) : List Char :=
  match l with
  | a :: b :: c :: c1 :: c2 :: c3 :: c4 :: rest =>
    if a == btick && b == btick && c == btick &&
        c1.toLower == 'j' && c2.toLower == 's' && c3.toLower == 'o' &&
        c4.toLower == 'n' then
      rest.dropWhile isJsWs
    else l
  | _ => l

/-- Model of `.replace(/^```\s*/i, '')` (src/Code.js line 401). -/
def stripFenceOpen (l : List Char) : List Char :=
  match l with
  | a :: b :: c :: rest =>
    if a == btick && b == btick && c == btick then rest.dropWhile isJsWs else l
  | _ => l

/-- Model of `.replace(/```$/i, '')` (src/Code.js line 402): drop a trailing
three-backtick fence (JS `$` without `m` anchors at the very end). -/
def stripFenceClose (l : List Char) : List Char :=
  match l.reverse with
  | a :: b :: c :: rest =>
    if a == btick && b == btick && c == btick then rest.reverse else l
  | _ => l

/-- Whether the text ends in a three-backtick fence (the condition under which
`stripFenceClose` fires). -/
def endsWithFence (l : List Char) : Bool :=
  match l.reverse with
  | a :: b :: c :: _ => a == btick && b == btick && c == btick
  | _ => false

/-- The response sanitization of `callGemini` (src/Code.js lines 399-403):
strip a leading ```` ```json ```` fence, then a leading plain ```` ``` ````
fence, then a trailing ```` ``` ```` fence, then trim. -/
def cleanTextL (l : List Char) : List Char :=
  jsTrimL (stripFenceClose (stripFenceOpen (stripFenceJson l)))

def cleanTextResponse (s : String) : String := String.mk (cleanTextL s.toList)

/-! ## JS values, image normalization (doPost) -/

/-- Model of the JS values the parsed request body and the parsed model
response can hold. -/
inductive JSVal where
  | jstr (s : String)
  | jnum (n : Int)
  | jbool (b : Bool)
  | jnull
  | jundefined
  | jarr (elems : List JSVal)
  | jobj (fields : List (String × JSVal))

/-- JS `typeof` (note `typeof null === 'object'` and arrays are objects). -/
def jsTypeof : JSVal → String
  | JSVal.jstr _ => "string"
  | JSVal.jnum _ => "number"
  | JSVal.jbool _ => "boolean"
  | JSVal.jundefined => "undefined"
  | JSVal.jnull => "object"
  | JSVal.jarr _ => "object"
  | JSVal.jobj _ => "object"

/-- Model of the repository helper `getType` (src/Code.js lines 173-181):
`typeof` for primitives, else the `Object.prototype.toString` class tag. -/
def getType : JSVal → String
  | JSVal.jstr _ => "string"
  | JSVal.jnum _ => "number"
  | JSVal.jbool _ => "boolean"
  | JSVal.jundefined => "undefined"
  | JSVal.jnull => "null"
  | JSVal.jarr _ => "Array"
  | JSVal.jobj _ => "Object"

/-- JS truthiness (the empty string, `0`, `false`, `null`, `undefined` are
falsy). -/
def jsTruthy : JSVal → Bool
  | JSVal.jstr s => !(s == "")
  | JSVal.jnum n => !(n == 0)
  | JSVal.jbool b => b
  | JSVal.jnull => false
  | JSVal.jundefined => false
  | JSVal.jarr _ => true
  | JSVal.jobj _ => true

/-- JS `a || b`. -/
def jsOr (a b : JSVal) : JSVal := if jsTruthy a then a else b

def isNullVal : JSVal → Bool
  | JSVal.jnull => true
  | _ => false

/-- Non-throwing property access used under the `typeof x === 'object'` guard:
a missing key and non-object receivers give `undefined`. -/
def getProp (v : JSVal) (k : String) : JSVal :=
  match v with
  | JSVal.jobj fs => (((fs.find? (fun p => p.1 == k)).map (fun p => p.2)).getD JSVal.jundefined)
  | _ => JSVal.jundefined

/-- The regex character class `[a-zA-Z0-9.+-]` of the data-URI strip. -/
def isSubtypeChar (c : Char) : Bool :=
  c.isAlpha || c.isDigit || c == '.' || c == '+' || c == '-'

/-- Model of `.replace(/^data:image\/[a-zA-Z0-9.+-]+;base64,/, '')`
(src/Code.js line 224): drop a leading `data:image/<subtype>;base64,` run,
where `<subtype>` is one or more class characters; otherwise leave the text
unchanged. -/
def dropDataUriL (l : List Char) : List Char :=
  if (("data:image/").toList).isPrefixOf l then
    if !((l.drop 11).takeWhile isSubtypeChar).isEmpty
        && ((";base64,").toList).isPrefixOf ((l.drop 11).dropWhile isSubtypeChar) then
      ((l.drop 11).dropWhile isSubtypeChar).drop 8
    else l
  else l

def dropDataUri (s : String) : String := String.mk (dropDataUriL s.toList)

/-- The unwrap step of `doPost` (src/Code.js lines 212-216):
`if (typeof x === 'object' && x !== null) x = x.base64 || x.data || null`. -/
def unwrapImage (img : JSVal) : JSVal :=
  if jsTypeof img == "object" && !(isNullVal img) then
    jsOr (getProp img "base64") (jsOr (getProp img "data") JSVal.jnull)
  else img

/-- The image normalization of `doPost` (src/Code.js lines 207-225): unwrap,
reject any non-string with the typed error message, then strip a data-URI
head and trim. -/
def normalizeImage (img : JSVal) : Except String String :=
  match unwrapImage img with
  | JSVal.jstr s => Except.ok (jsTrim (dropDataUri s))
  | b =>
    Except.error ("base64Image has wrong type: " ++ getType b ++ " instead of string")

/-! ## Gemini response handling (callGemini) -/

/-- Throwing property access: reading any property of `undefined` or `null`
raises a `TypeError`. -/
def jsGetProp (v : JSVal) (k : String) : Except String JSVal :=
  match v with
  | JSVal.jundefined => Except.error "TypeError: Cannot read properties of undefined"
  | JSVal.jnull => Except.error "TypeError: Cannot read properties of null"
  | JSVal.jobj fs =>
    Except.ok (((fs.find? (fun p => p.1 == k)).map (fun p => p.2)).getD JSVal.jundefined)
  | _ => Except.ok JSVal.jundefined

/-- Throwing index access `v[i]`: arrays index their elements, objects read
the numeric-string key, strings index their characters, `undefined` and
`null` raise a `TypeError`. -/
def jsGetIdx (v : JSVal) (i : Nat) : Except String JSVal :=
  match v with
  | JSVal.jundefined => Except.error "TypeError: Cannot read properties of undefined"
  | JSVal.jnull => Except.error "TypeError: Cannot read properties of null"
  | JSVal.jarr xs => Except.ok ((xs[i]?).getD JSVal.jundefined)
  | JSVal.jobj fs =>
    Except.ok (((fs.find? (fun p => p.1 == toString i)).map (fun p => p.2)).getD JSVal.jundefined)
  | JSVal.jstr s =>
    Except.ok (((s.toList[i]?).map (fun ch => JSVal.jstr (String.mk [ch]))).getD JSVal.jundefined)
  | _ => Except.ok JSVal.jundefined

/-- Coarse model of JS string coercion, used only to render the upstream
error message. -/
def jsToString : JSVal → String
  | JSVal.jstr s => s
  | JSVal.jnum n => toString n
  | JSVal.jbool b => if b then "true" else "false"
  | JSVal.jnull => "null"
  | JSVal.jundefined => "undefined"
  | JSVal.jarr _ => ""
  | JSVal.jobj _ => "[object Object]"

/-- The access chain `json.candidates[0].content.parts[0].text` of
src/Code.js line 391, with JS member-access semantics. -/
def geminiTextNode (json : JSVal) : Except String JSVal := do
  let cands ← jsGetProp json "candidates"
  let c0 ← jsGetIdx cands 0
  let content ← jsGetProp c0 "content"
  let parts ← jsGetProp content "parts"
  let p0 ← jsGetIdx parts 0
  jsGetProp p0 "text"

/-- Whether the candidates/content/parts/text path exists and yields a
string. -/
def hasGeminiTextPath (json : JSVal) : Bool :=
  match geminiTextNode json with
  | Except.ok (JSVal.jstr _) => true
  | _ => false

/-- Whether the response body carries a truthy application-level `error`
object (the `if (json.error)` test of src/Code.js line 387). -/
def hasGeminiError (json : JSVal) : Bool :=
  match jsGetProp json "error" with
  | Except.ok e => jsTruthy e
  | Except.error _ => false

/-- The response handling of `callGemini` after the fetch (src/Code.js lines
387-391): a truthy `json.error` raises the upstream message, otherwise the
text of the first candidate is read (any break in the path raises a
`TypeError`); a non-string text would fail at the subsequent `.replace`. -/
def geminiExtractText (json : JSVal) : Except String String := do
  let err ← jsGetProp json "error"
  if jsTruthy err then
    Except.error ("Gemini API Error: " ++ jsToString (getProp err "message"))
  else
    let text ← geminiTextNode json
    match text with
    | JSVal.jstr s => pure s
    | _ => Except.error "TypeError: textResponse.replace is not a function"

/-- `callGemini`'s text post-processing: the raw candidate text put through
the fence-stripping sanitization (the subsequent `JSON.parse` is consumed by
`updateSheet` and modelled there). -/
def callGeminiText (json : JSVal) : Except String String :=
  (geminiExtractText json).map cleanTextResponse

/-! ## The request pipeline (doPost) -/

/-- Model of the `doPost` try/catch around the pipeline (src/Code.js lines
192-249) from the image field on.  `analyze` stands for the external stages
(`getHabitMetadata` followed by `callGemini`) as a function of the normalized
image; a thrown `Error` with message `m` surfaces as the response text
`'Error: ' + error.toString() = "Error: Error: " ++ m`.  The pair returned is
the response body and the final destination sheet. -/
def runPipeline (sheet : Sheet) (img : JSVal)
    (analyze : String → Except String (Option ExtractionData)) : String × Sheet :=
  match normalizeImage img with
  | Except.error e => ("Error: Error: " ++ e, sheet)
  | Except.ok b64 =>
    match analyze b64 with
    | Except.error e => ("Error: Error: " ++ e, sheet)
    | Except.ok analysis =>
      match updateSheet sheet analysis with
      | Except.error e => ("Error: Error: " ++ e, sheet)
      | Except.ok (sheet2, msg) => (msg, sheet2)

/-! ## Basic cell-access lemmas -/

theorem cellAtRow_nil (c : Nat) : cellAtRow [] c = CellVal.empty := by
  simp [cellAtRow]

theorem cellAtRow_cons_zero (v : CellVal) (row : List CellVal) :
    cellAtRow (v :: row) 0 = v := by
  simp [cellAtRow]

theorem cellAtRow_cons_succ (v : CellVal) (row : List CellVal) (c : Nat) :
    cellAtRow (v :: row) (c + 1) = cellAtRow row c := by
  simp [cellAtRow]

theorem cellAt_nil (r c : Nat) : cellAt ([] : Grid) r c = CellVal.empty := by
  simp [cellAt, cellAtRow]

theorem cellAt_cons_zero (row : List CellVal) (rest : Grid) (c : Nat) :
    cellAt (row :: rest) 0 c = cellAtRow row c := by
  simp [cellAt]

theorem cellAt_cons_succ (row : List CellVal) (rest : Grid) (r c : Nat) :
    cellAt (row :: rest) (r + 1) c = cellAt rest r c := by
  simp [cellAt]

theorem cellAtRow_setInRow (v : CellVal) :
    ∀ (c : Nat) (row : List CellVal) (c2 : Nat),
      cellAtRow (setInRow c row v) c2 = if c2 = c then v else cellAtRow row c2 := by
  intro c
  induction c with
  | zero =>
    intro row c2
    cases row <;> cases c2 <;> simp [setInRow, cellAtRow_nil, cellAtRow_cons_zero,
      cellAtRow_cons_succ]
  | succ n ih =>
    intro row c2
    cases row with
    | nil =>
      cases c2 with
      | zero => simp [setInRow, cellAtRow_cons_zero, cellAtRow_nil]
      | succ k =>
        rw [show setInRow (n + 1) [] v = CellVal.empty :: setInRow n [] v from rfl,
          cellAtRow_cons_succ, ih]
        by_cases hk : k = n
        · simp [hk]
        · simp [hk, fun h => hk (Nat.succ_injective h), cellAtRow_nil]
    | cons x rest =>
      cases c2 with
      | zero => simp [setInRow, cellAtRow_cons_zero]
      | succ k =>
        rw [show setInRow (n + 1) (x :: rest) v = x :: setInRow n rest v from rfl,
          cellAtRow_cons_succ, ih, cellAtRow_cons_succ]
        by_cases hk : k = n
        · simp [hk]
        · simp [hk, fun h => hk (Nat.succ_injective h)]

theorem cellAt_setCellG (v : CellVal) (c : Nat) :
    ∀ (r : Nat) (g : Grid) (r2 c2 : Nat),
      cellAt (setCellG r g c v) r2 c2
        = if r2 = r ∧ c2 = c then v else cellAt g r2 c2 := by
  intro r
  induction r with
  | zero =>
    intro g r2 c2
    cases g with
    | nil =>
      cases r2 with
      | zero =>
        rw [show setCellG 0 [] c v = [setInRow c [] v] from rfl, cellAt_cons_zero,
          cellAtRow_setInRow, cellAt_nil]
        by_cases hc : c2 = c <;> simp [hc, cellAtRow_nil]
      | succ k =>
        rw [show setCellG 0 [] c v = [setInRow c [] v] from rfl, cellAt_cons_succ,
          cellAt_nil, cellAt_nil]
        simp
    | cons row rest =>
      cases r2 with
      | zero =>
        rw [show setCellG 0 (row :: rest) c v = setInRow c row v :: rest from rfl,
          cellAt_cons_zero, cellAtRow_setInRow, cellAt_cons_zero]
        by_cases hc : c2 = c <;> simp [hc]
      | succ k =>
        rw [show setCellG 0 (row :: rest) c v = setInRow c row v :: rest from rfl,
          cellAt_cons_succ, cellAt_cons_succ]
        simp
  | succ n ih =>
    intro g r2 c2
    cases g with
    | nil =>
      cases r2 with
      | zero =>
        rw [show setCellG (n + 1) [] c v = [] :: setCellG n [] c v from rfl,
          cellAt_cons_zero, cellAt_nil]
        simp [cellAtRow_nil]
      | succ k =>
        rw [show setCellG (n + 1) [] c v = [] :: setCellG n [] c v from rfl,
          cellAt_cons_succ, ih, cellAt_nil, cellAt_nil]
        by_cases hk : k = n
        · simp [hk]
        · simp [hk, fun h => hk (Nat.succ_injective h)]
    | cons row rest =>
      cases r2 with
      | zero =>
        rw [show setCellG (n + 1) (row :: rest) c v = row :: setCellG n rest c v from rfl,
          cellAt_cons_zero, cellAt_cons_zero]
        simp
      | succ k =>
        rw [show setCellG (n + 1) (row :: rest) c v = row :: setCellG n rest c v from rfl,
          cellAt_cons_succ, ih, cellAt_cons_succ]
        by_cases hk : k = n
        · simp [hk]
        · simp [hk, fun h => hk (Nat.succ_injective h)]

theorem cellAt_setCellsFrom_frame :
    ∀ (vs : List CellVal) (g : Grid) (r c r2 c2 : Nat),
      (r2 ≠ r ∨ c2 < c ∨ c + vs.length ≤ c2) →
      cellAt (setCellsFrom g r c vs) r2 c2 = cellAt g r2 c2 := by
  intro vs
  induction vs with
  | nil => intro g r c r2 c2 _; rfl
  | cons v rest ih =>
    intro g r c r2 c2 h
    rw [show setCellsFrom g r c (v :: rest)
        = setCellsFrom (setCellG r g c v) r (c + 1) rest from rfl]
    rw [ih (setCellG r g c v) r (c + 1) r2 c2 (by
      rcases h with h | h | h
      · exact Or.inl h
      · exact Or.inr (Or.inl (Nat.lt_succ_of_lt h))
      · exact Or.inr (Or.inr (by simp at h ⊢; omega)))]
    rw [cellAt_setCellG]
    have : ¬(r2 = r ∧ c2 = c) := by
      rintro ⟨h1, h2⟩
      rcases h with h | h | h
      · exact h h1
      · omega
      · simp at h; omega
    simp [this]

theorem cellAt_setCellsFrom_get :
    ∀ (vs : List CellVal) (g : Grid) (r c i : Nat),
      i < vs.length →
      cellAt (setCellsFrom g r c vs) r (c + i) = vs.getD i CellVal.empty := by
  intro vs
  induction vs with
  | nil => intro g r c i h; simp at h
  | cons v rest ih =>
    intro g r c i h
    rw [show setCellsFrom g r c (v :: rest)
        = setCellsFrom (setCellG r g c v) r (c + 1) rest from rfl]
    cases i with
    | zero =>
      rw [cellAt_setCellsFrom_frame rest _ r (c + 1) r (c + 0)
        (Or.inr (Or.inl (by omega)))]
      rw [cellAt_setCellG]
      simp
    | succ k =>
      have : c + (k + 1) = (c + 1) + k := by omega
      rw [this, ih (setCellG r g c v) r (c + 1) k (by simpa using h)]
      simp

/-! ## Date-search lemmas -/

theorem matchesAt_cons_succ (row : List CellVal) (rest : Grid) (t : Option JSDate)
    (r c : Nat) : matchesAt (row :: rest) t (r + 1) c = matchesAt rest t r c := by
  simp [matchesAt, cellAt_cons_succ]

theorem matchesAt_cons_zero (row : List CellVal) (rest : Grid) (t : Option JSDate)
    (c : Nat) : matchesAt (row :: rest) t 0 c = cellHitsTarget (cellAtRow row c) t := by
  simp [matchesAt, cellAt_cons_zero]

theorem findRowIdx_none_iff (t : Option JSDate) :
    ∀ row : List CellVal,
      findRowIdx t row = none ↔ ∀ c, cellHitsTarget (cellAtRow row c) t = false := by
  intro row
  induction row with
  | nil => simp [findRowIdx, cellAtRow_nil, cellHitsTarget]
  | cons v rest ih =>
    by_cases hv : cellHitsTarget v t
    · simp only [findRowIdx, hv, if_true]
      constructor
      · intro h; exact absurd h (by simp)
      · intro h; have := h 0; rw [cellAtRow_cons_zero] at this; rw [hv] at this; cases this
    · simp only [findRowIdx, hv, if_false]
      constructor
      · intro h c
        cases c with
        | zero => rw [cellAtRow_cons_zero]; exact Bool.eq_false_iff.mpr hv
        | succ k =>
          rw [cellAtRow_cons_succ]
          exact (ih.mp (by simpa using h)) k
      · intro h
        have : findRowIdx t rest = none := ih.mpr (fun c => by
          have := h (c + 1); rwa [cellAtRow_cons_succ] at this)
        simp [this]

theorem findRowIdx_some_spec (t : Option JSDate) :
    ∀ (row : List CellVal) (c : Nat), findRowIdx t row = some c →
      cellHitsTarget (cellAtRow row c) t = true
        ∧ ∀ c2, c2 < c → cellHitsTarget (cellAtRow row c2) t = false := by
  intro row
  induction row with
  | nil => intro c h; simp [findRowIdx] at h
  | cons v rest ih =>
    intro c h
    by_cases hv : cellHitsTarget v t
    · simp only [findRowIdx, hv, if_true, Option.some.injEq] at h
      subst h
      refine ⟨by rwa [cellAtRow_cons_zero], ?_⟩
      intro c2 hc2; omega
    · rcases hres : findRowIdx t rest with _ | k
      · simp [findRowIdx, hv, hres] at h
      · simp [findRowIdx, hv, hres] at h
        subst h
        obtain ⟨h1, h2⟩ := ih k hres
        refine ⟨by rwa [cellAtRow_cons_succ], ?_⟩
        intro c2 hc2
        cases c2 with
        | zero => rw [cellAtRow_cons_zero]; exact Bool.eq_false_iff.mpr hv
        | succ j => rw [cellAtRow_cons_succ]; exact h2 j (by omega)

theorem findGrid_none_iff (t : Option JSDate) :
    ∀ g : Grid, findGrid t g = none ↔ ∀ r c, matchesAt g t r c = false := by
  intro g
  induction g with
  | nil => simp [findGrid, matchesAt, cellAt_nil, cellHitsTarget]
  | cons row rest ih =>
    cases hrow : findRowIdx t row with
    | some c =>
      simp only [findGrid, hrow]
      constructor
      · intro h; exact absurd h (by simp)
      · intro h
        obtain ⟨h1, _⟩ := findRowIdx_some_spec t row c hrow
        have := h 0 c
        rw [matchesAt_cons_zero, h1] at this
        cases this
    | none =>
      simp only [findGrid, hrow]
      constructor
      · intro h r c
        cases r with
        | zero =>
          rw [matchesAt_cons_zero]
          exact (findRowIdx_none_iff t row).mp hrow c
        | succ k =>
          rw [matchesAt_cons_succ]
          have hrest : findGrid t rest = none := by
            rcases hg : findGrid t rest with _ | p
            · rfl
            · rw [hg] at h; simp at h
          exact (ih.mp hrest) k c
      · intro h
        have hrest : findGrid t rest = none := ih.mpr (fun r c => by
          have := h (r + 1) c; rwa [matchesAt_cons_succ] at this)
        simp [hrest]

theorem findGrid_some_spec (t : Option JSDate) :
    ∀ (g : Grid) (r c : Nat), findGrid t g = some (r, c) →
      matchesAt g t r c = true
        ∧ ∀ r2 c2, matchesAt g t r2 c2 = true → (r < r2 ∨ (r2 = r ∧ c ≤ c2)) := by
  intro g
  induction g with
  | nil => intro r c h; simp [findGrid] at h
  | cons row rest ih =>
    intro r c h
    cases hrow : findRowIdx t row with
    | some c0 =>
      rw [findGrid, hrow] at h
      obtain ⟨hr, hc⟩ : r = 0 ∧ c0 = c := by
        simp only [Option.some.injEq, Prod.mk.injEq] at h
        exact ⟨h.1.symm, h.2⟩
      subst hr; subst hc
      obtain ⟨h1, h2⟩ := findRowIdx_some_spec t row c0 hrow
      constructor
      · rwa [matchesAt_cons_zero]
      · intro r2 c2 hm
        cases r2 with
        | zero =>
          rw [matchesAt_cons_zero] at hm
          right
          refine ⟨rfl, ?_⟩
          by_contra hlt
          have := h2 c2 (by omega)
          rw [hm] at this; cases this
        | succ k => left; omega
    | none =>
      rw [findGrid, hrow] at h
      rcases hg : findGrid t rest with _ | p
      · rw [hg] at h; simp at h
      · rw [hg] at h
        obtain ⟨r0, c0⟩ := p
        simp only [Option.map_some', Option.some.injEq, Prod.mk.injEq] at h
        obtain ⟨hr, hc⟩ := h
        subst hr; subst hc
        obtain ⟨h1, h2⟩ := ih r0 c0 hg
        constructor
        · rwa [matchesAt_cons_succ]
        · intro r2 c2 hm
          cases r2 with
          | zero =>
            rw [matchesAt_cons_zero] at hm
            have := (findRowIdx_none_iff t row).mp hrow c2
            rw [hm] at this; cases this
          | succ k =>
            rw [matchesAt_cons_succ] at hm
            rcases h2 k c2 hm with h3 | ⟨h3, h4⟩
            · left; omega
            · right; exact ⟨by omega, h4⟩

theorem findFirstDateMatch_none_iff (g : Grid) (t : Option JSDate) :
    findFirstDateMatch g t = none ↔ ∀ r c, matchesAt g t r c = false := by
  rw [findFirstDateMatch, Option.map_eq_none']
  exact findGrid_none_iff t g

theorem findFirstDateMatch_some_spec (g : Grid) (t : Option JSDate) (r c : Nat)
    (h : findFirstDateMatch g t = some (r, c)) :
    1 ≤ r ∧ 1 ≤ c ∧ matchesAt g t (r - 1) (c - 1) = true
      ∧ ∀ r2 c2, matchesAt g t r2 c2 = true →
          (r - 1 < r2 ∨ (r2 = r - 1 ∧ c - 1 ≤ c2)) := by
  rw [findFirstDateMatch, Option.map_eq_some'] at h
  obtain ⟨⟨r0, c0⟩, hg, hpair⟩ := h
  simp only [Prod.mk.injEq] at hpair
  obtain ⟨hr, hc⟩ := hpair
  obtain ⟨h1, h2⟩ := findGrid_some_spec t g r0 c0 hg
  subst hr; subst hc
  refine ⟨by omega, by omega, by simpa using h1, by simpa using h2⟩

/-! ## getLastRow lemmas -/

theorem getLastRow_ge_of_nonEmpty :
    ∀ (g : Grid) (r c : Nat), cellNonEmpty (cellAt g r c) = true →
      r + 1 ≤ getLastRow g := by
  intro g
  induction g with
  | nil => intro r c h; rw [cellAt_nil] at h; simp [cellNonEmpty] at h
  | cons row rest ih =>
    intro r c h
    cases r with
    | zero =>
      rw [cellAt_cons_zero] at h
      have hrow : rowNonEmpty row = true := by
        rw [rowNonEmpty, List.any_eq_true]
        rcases hc : row[c]? with _ | v
        · rw [cellAtRow, hc] at h; simp [cellNonEmpty] at h
        · exact ⟨v, List.getElem?_mem hc, by rwa [cellAtRow, hc] at h⟩
      rw [getLastRow]
      by_cases hl : getLastRow rest ≠ 0 <;> simp [hl, hrow]
    | succ k =>
      rw [cellAt_cons_succ] at h
      have := ih k c h
      rw [getLastRow]
      by_cases hl : getLastRow rest ≠ 0 <;> simp [hl] <;> omega

/-! ## Habit-lookup lemmas -/

theorem findHabitRow_some_iff (g : Grid) (habit : String) :
    ∀ (count start r : Nat), 1 ≤ start →
      (findHabitRow g habit start count = some r ↔
        (start ≤ r ∧ r < start + count ∧ cellAt g (r - 1) 0 = CellVal.str habit ∧
         ∀ r2, start ≤ r2 → r2 < r → cellAt g (r2 - 1) 0 ≠ CellVal.str habit)) := by
  intro count
  induction count with
  | zero =>
    intro start r _
    simp only [findHabitRow]
    constructor
    · intro h; cases h
    · intro ⟨h1, h2, _⟩; omega
  | succ n ih =>
    intro start r hstart
    by_cases hcell : cellAt g (start - 1) 0 = CellVal.str habit
    · simp only [findHabitRow, hcell, if_true]
      constructor
      · intro h
        obtain rfl : start = r := by cases h; rfl
        exact ⟨le_refl _, by omega, hcell, fun r2 h1 h2 => by omega⟩
      · intro ⟨h1, h2, h3, h4⟩
        by_cases hr : r = start
        · rw [hr]
        · exact absurd hcell (h4 start (le_refl _) (by omega))
    · simp only [findHabitRow, hcell, if_false]
      rw [ih (start + 1) r (by omega)]
      constructor
      · intro ⟨h1, h2, h3, h4⟩
        refine ⟨by omega, by omega, h3, ?_⟩
        intro r2 hr2a hr2b
        by_cases hr2 : r2 = start
        · rwa [hr2]
        · exact h4 r2 (by omega) hr2b
      · intro ⟨h1, h2, h3, h4⟩
        have hrs : r ≠ start := by
          intro hr; rw [hr] at h3; exact hcell h3
        exact ⟨by omega, by omega, h3, fun r2 ha hb => h4 r2 (by omega) hb⟩

theorem findHabitRow_bounds (g : Grid) (habit : String) :
    ∀ (count start r : Nat), findHabitRow g habit start count = some r →
      start ≤ r ∧ r < start + count := by
  intro count
  induction count with
  | zero => intro start r h; cases h
  | succ n ih =>
    intro start r h
    by_cases hcell : cellAt g (start - 1) 0 = CellVal.str habit
    · simp only [findHabitRow, hcell, if_true] at h
      cases h; omega
    · simp only [findHabitRow, hcell, if_false] at h
      have := ih (start + 1) r h
      omega

theorem findHabitRow_congr (g1 g2 : Grid) (habit : String)
    (hagree : ∀ r, cellAt g1 r 0 = cellAt g2 r 0) :
    ∀ (count start : Nat),
      findHabitRow g1 habit start count = findHabitRow g2 habit start count := by
  intro count
  induction count with
  | zero => intro start; rfl
  | succ n ih =>
    intro start
    simp only [findHabitRow, hagree (start - 1), ih (start + 1)]

/-! ## Value-window clamp lemmas -/

theorem clampValuesTo7_length (values : Option (List JVal)) :
    (clampValuesTo7 values).length = 7 := by
  rw [clampValuesTo7]
  by_cases h : (values.getD []).length > 7
  · simp [h, List.length_append, List.length_replicate, List.length_take]
  · simp [h, List.length_append, List.length_replicate]
    omega

theorem clampValuesTo7_eq (values : Option (List JVal)) :
    clampValuesTo7 values
      = (values.getD []).take 7
        ++ List.replicate (7 - (values.getD []).length) JVal.jnull := by
  rw [clampValuesTo7]
  by_cases h : (values.getD []).length > 7
  · simp [h, List.length_take]
    omega
  · simp only [h, if_false]
    rw [List.take_of_length_le (by omega)]

/-! ## Fold lemmas for the reconciliation loop -/

theorem applyEntry_col0 (startRow lastRow : Nat) (acc : Grid × Nat)
    (item : HabitEntry) (r : Nat) :
    cellAt (applyEntry startRow lastRow acc item).1 r 0 = cellAt acc.1 r 0 := by
  rw [applyEntry]
  rcases hf : findHabitRow acc.1 item.habit startRow (lastRow - startRow + 1) with _ | r0
  · rfl
  · exact cellAt_setCellsFrom_frame _ acc.1 (r0 - 1) 2 r 0 (Or.inr (Or.inl (by omega)))

theorem foldl_applyEntry_col0 (startRow lastRow : Nat) :
    ∀ (l : List HabitEntry) (acc : Grid × Nat) (r : Nat),
      cellAt (l.foldl (applyEntry startRow lastRow) acc).1 r 0 = cellAt acc.1 r 0 := by
  intro l
  induction l with
  | nil => intro acc r; rfl
  | cons item rest ih =>
    intro acc r
    rw [List.foldl_cons, ih (applyEntry startRow lastRow acc item) r,
      applyEntry_col0]

theorem foldl_applyEntry_count (startRow lastRow : Nat) (orig : Grid) :
    ∀ (l : List HabitEntry) (g : Grid) (n : Nat),
      (∀ r, cellAt g r 0 = cellAt orig r 0) →
      (l.foldl (applyEntry startRow lastRow) (g, n)).2
        = n + l.countP (fun item =>
            (findHabitRow orig item.habit startRow (lastRow - startRow + 1)).isSome) := by
  intro l
  induction l with
  | nil => intro g n _; simp
  | cons item rest ih =>
    intro g n hagree
    rw [List.foldl_cons, List.countP_cons]
    have heq : findHabitRow g item.habit startRow (lastRow - startRow + 1)
        = findHabitRow orig item.habit startRow (lastRow - startRow + 1) :=
      findHabitRow_congr g orig item.habit hagree _ _
    rcases hf : findHabitRow orig item.habit startRow (lastRow - startRow + 1) with _ | r0
    · have hstep : applyEntry startRow lastRow (g, n) item = (g, n) := by
        rw [applyEntry]; rw [show (g, n).1 = g from rfl, heq, hf]
      rw [hstep, ih g n hagree]
      simp [hf]
    · have hstep : applyEntry startRow lastRow (g, n) item
          = (setCellsFrom g (r0 - 1) 2 ((clampValuesTo7 item.values).map cellOfJVal),
             n + 1) := by
        rw [applyEntry]; rw [show (g, n).1 = g from rfl, heq, hf]
      rw [hstep]
      rw [ih _ (n + 1) (fun r => by
        rw [cellAt_setCellsFrom_frame _ g (r0 - 1) 2 r 0 (Or.inr (Or.inl (by omega)))]
        exact hagree r)]
      simp [hf]
      omega

theorem foldl_applyEntry_frame (startRow lastRow : Nat) (orig : Grid)
    (hstart : 1 ≤ startRow) (r2 c2 : Nat) :
    ∀ (l : List HabitEntry) (g : Grid) (n : Nat),
      (∀ r, cellAt g r 0 = cellAt orig r 0) →
      cellAt g r2 c2 = cellAt orig r2 c2 →
      ((c2 < 2 ∨ 8 < c2) ∨
        (∀ item ∈ l,
          findHabitRow orig item.habit startRow (lastRow - startRow + 1) ≠ some (r2 + 1))) →
      cellAt (l.foldl (applyEntry startRow lastRow) (g, n)).1 r2 c2
        = cellAt orig r2 c2 := by
  intro l
  induction l with
  | nil => intro g n _ hcell _; exact hcell
  | cons item rest ih =>
    intro g n hagree hcell hcond
    rw [List.foldl_cons]
    have heq : findHabitRow g item.habit startRow (lastRow - startRow + 1)
        = findHabitRow orig item.habit startRow (lastRow - startRow + 1) :=
      findHabitRow_congr g orig item.habit hagree _ _
    rcases hf : findHabitRow orig item.habit startRow (lastRow - startRow + 1) with _ | r0
    · have hstep : applyEntry startRow lastRow (g, n) item = (g, n) := by
        rw [applyEntry]; rw [show (g, n).1 = g from rfl, heq, hf]
      rw [hstep]
      refine ih g n hagree hcell ?_
      rcases hcond with h | h
      · exact Or.inl h
      · exact Or.inr (fun it hit => h it (List.mem_cons_of_mem _ hit))
    · have hr0 : startRow ≤ r0 := (findHabitRow_bounds orig item.habit _ _ _ hf).1
      have hstep : applyEntry startRow lastRow (g, n) item
          = (setCellsFrom g (r0 - 1) 2 ((clampValuesTo7 item.values).map cellOfJVal),
             n + 1) := by
        rw [applyEntry]; rw [show (g, n).1 = g from rfl, heq, hf]
      rw [hstep]
      have hwrite : cellAt
          (setCellsFrom g (r0 - 1) 2 ((clampValuesTo7 item.values).map cellOfJVal))
          r2 c2 = cellAt g r2 c2 := by
        apply cellAt_setCellsFrom_frame
        rcases hcond with h | h
        · rcases h with h | h
          · exact Or.inr (Or.inl h)
          · refine Or.inr (Or.inr ?_)
            have hlen : ((clampValuesTo7 item.values).map cellOfJVal).length = 7 := by
              rw [List.length_map, clampValuesTo7_length]
            omega
        · left
          have hne := h item (List.mem_cons_self _ _)
          intro hrr
          apply hne
          rw [hf]
          congr 1
          omega
      refine ih _ (n + 1) (fun r => by
        rw [cellAt_setCellsFrom_frame _ g (r0 - 1) 2 r 0 (Or.inr (Or.inl (by omega)))]
        exact hagree r) (by rw [hwrite]; exact hcell) ?_
      rcases hcond with h | h
      · exact Or.inl h
      · exact Or.inr (fun it hit => h it (List.mem_cons_of_mem _ hit))

/-! ## updateSheet unfolding lemmas -/

theorem cellHitsTarget_nonEmpty (v : CellVal) (t : Option JSDate)
    (h : cellHitsTarget v t = true) : cellNonEmpty v = true := by
  cases v <;> cases t <;> simp [cellHitsTarget, cellNonEmpty] at h ⊢

theorem updateSheet_found (sheet : Sheet) (data : ExtractionData) (wsd : String)
    (startRow c0 : Nat)
    (h1 : data.week_start_date = some wsd) (h2 : wsd ≠ "")
    (h3 : findFirstDateMatch sheet.grid (parseMmDdYyyy wsd) = some (startRow, c0)) :
    updateSheet sheet (some data)
      = Except.ok
          ({ sheet with grid :=
              (data.data.foldl (applyEntry startRow (getLastRow sheet.grid))
                (sheet.grid, 0)).1 },
           "Success! Updated "
             ++ toString ((data.data.foldl (applyEntry startRow (getLastRow sheet.grid))
                  (sheet.grid, 0)).2)
             ++ " habits for week of " ++ wsd) := by
  simp only [updateSheet, h1, h3, if_neg h2]

/-- C1: For every ExtractionResult entry whose habit name is matched in the
destination window, updateSheet (HabitRowReconciler) writes exactly 7 values
into columns 3-9 of the matched label's row: the entry's value list is
truncated to its first 7 elements if longer than 7, and padded with null up
to length 7 if shorter.  (`applyEntry` is the loop body of `updateSheet`;
columns 3-9 are the 0-based columns `2 + i`, `i < 7`.) -/
theorem updateSheet_writes_exactly_seven (startRow lastRow : Nat) (g : Grid)
    (n : Nat) (item : HabitEntry) (r : Nat)
    (h : findHabitRow g item.habit startRow (lastRow - startRow + 1) = some r) :
    applyEntry startRow lastRow (g, n) item
        = (setCellsFrom g (r - 1) 2 ((clampValuesTo7 item.values).map cellOfJVal),
           n + 1)
      ∧ (clampValuesTo7 item.values).length = 7
      ∧ clampValuesTo7 item.values
          = (item.values.getD []).take 7
            ++ List.replicate (7 - (item.values.getD []).length) JVal.jnull
      ∧ ∀ i : Fin 7,
          cellAt (applyEntry startRow lastRow (g, n) item).1 (r - 1) (2 + (i : Nat))
            = cellOfJVal ((clampValuesTo7 item.values).getD (i : Nat) JVal.jnull) := by
  have hstep : applyEntry startRow lastRow (g, n) item
      = (setCellsFrom g (r - 1) 2 ((clampValuesTo7 item.values).map cellOfJVal),
         n + 1) := by
    rw [applyEntry]; rw [show (g, n).1 = g from rfl, h]
  refine ⟨hstep, clampValuesTo7_length _, clampValuesTo7_eq _, ?_⟩
  intro i
  rw [hstep]
  have hlen : (i : Nat) < ((clampValuesTo7 item.values).map cellOfJVal).length := by
    rw [List.length_map, clampValuesTo7_length]; exact i.isLt
  have hlen2 : (i : Nat) < (clampValuesTo7 item.values).length := by
    rw [clampValuesTo7_length]; exact i.isLt
  rw [show ((setCellsFrom g (r - 1) 2 ((clampValuesTo7 item.values).map cellOfJVal),
      n + 1) : Grid × Nat).1
      = setCellsFrom g (r - 1) 2 ((clampValuesTo7 item.values).map cellOfJVal)
      from rfl]
  rw [cellAt_setCellsFrom_get _ g (r - 1) 2 (i : Nat) hlen]
  rw [List.getD_eq_getElem _ _ hlen, List.getD_eq_getElem _ _ hlen2]
  exact List.getElem_map cellOfJVal

/-- Witness for C1 at a concrete two-row sheet, a matched habit and a one-value
list. -/
theorem updateSheet_writes_exactly_seven_witness :
    (clampValuesTo7 (HabitEntry.mk "Flossing" (some [JVal.jnum 1])).values).length
      = 7 :=
  (updateSheet_writes_exactly_seven 1 2
    [[CellVal.date ⟨2026, 0, 5, 0⟩], [CellVal.str "Flossing"]] 0
    ⟨"Flossing", some [JVal.jnum 1]⟩ 2 (by decide)).2.1

/-- C2: Whenever the destination table contains no cell equal (at day
granularity) to the parsed week-start date, updateSheet returns a user-visible
result string naming the unmatched week and the destination sheet name instead
of throwing, and leaves every cell of the destination table unchanged (the
reconciliation is aborted, not partially applied). -/
theorem updateSheet_week_not_found (sheet : Sheet) (data : ExtractionData)
    (wsd : String) (h1 : data.week_start_date = some wsd) (h2 : wsd ≠ "")
    (h3 : ∀ r c, matchesAt sheet.grid (parseMmDdYyyy wsd) r c = false) :
    updateSheet sheet (some data)
      = Except.ok (sheet,
          "Error: Could not find week starting " ++ wsd ++ " in sheet \x22"
            ++ sheet.name ++ "\x22.") := by
  have hnone : findFirstDateMatch sheet.grid (parseMmDdYyyy wsd) = none :=
    (findFirstDateMatch_none_iff _ _).mpr h3
  simp only [updateSheet, h1, hnone, if_neg h2]

/-- Witness for C2 at a concrete sheet holding no date cell at all. -/
theorem updateSheet_week_not_found_witness :
    updateSheet ⟨"Weekly View", [[CellVal.str "x"]]⟩ (some ⟨some "02/02/2026", []⟩)
      = Except.ok ((⟨"Weekly View", [[CellVal.str "x"]]⟩ : Sheet),
          "Error: Could not find week starting " ++ "02/02/2026" ++ " in sheet \x22"
            ++ "Weekly View" ++ "\x22.") :=
  updateSheet_week_not_found ⟨"Weekly View", [[CellVal.str "x"]]⟩
    ⟨some "02/02/2026", []⟩ "02/02/2026" rfl (by decide)
    ((findFirstDateMatch_none_iff _ _).mp (by decide))

/-- C3: For every target date and every destination table state,
findFirstDateMatch (WeekLocator) returns the 1-based row and column of the
first cell in row-major order (top-to-bottom, left-to-right) whose date value,
normalized to midnight, equals the target date normalized to midnight; when no
such cell exists it returns a not-found signal (`none`).  If several cells
hold the same date, the first in reading order wins (every other match sits at
a strictly later row, or at the same row and a column no earlier). -/
theorem findFirstDateMatch_row_major_first (g : Grid) (td : JSDate) :
    (∀ r c, findFirstDateMatch g (some td) = some (r, c) →
        1 ≤ r ∧ 1 ≤ c ∧ matchesAt g (some td) (r - 1) (c - 1) = true ∧
          ∀ r2 c2, matchesAt g (some td) r2 c2 = true →
            (r - 1 < r2 ∨ (r2 = r - 1 ∧ c - 1 ≤ c2)))
      ∧ (findFirstDateMatch g (some td) = none ↔
          ∀ r c, matchesAt g (some td) r c = false) :=
  ⟨fun r c h => findFirstDateMatch_some_spec g (some td) r c h,
   findFirstDateMatch_none_iff g (some td)⟩

/-- Witness for C3: on a sheet whose first date cell sits at 1-based (1, 2),
the match location reported by the theorem is a real day-granularity match
even though the target carries a nonzero time of day. -/
theorem findFirstDateMatch_row_major_first_witness :
    matchesAt [[CellVal.str "x", CellVal.date ⟨2026, 0, 5, 0⟩]]
      (some ⟨2026, 0, 5, 250⟩) 0 1 = true :=
  ((findFirstDateMatch_row_major_first
      [[CellVal.str "x", CellVal.date ⟨2026, 0, 5, 0⟩]] ⟨2026, 0, 5, 250⟩).1
    1 2 (by decide)).2.2.1

/-- C4: For each extracted entry, HabitRowReconciler locates the destination
row by an exact-text lookup of the entry's habit name within the search window
spanning from the anchor row to the table's last populated row, restricted to
the label column (column 1), and uses the first match found by that lookup.
(`lastRow - startRow + 1` is the `rowCount` of the search range built by
`updateSheet`; the characterization says the returned row is the first row of
the window whose label cell carries exactly the habit text.) -/
theorem findHabitRow_window_exact_first (g : Grid) (startRow lastRow : Nat)
    (habit : String) (r : Nat) (h1 : 1 ≤ startRow) (h2 : startRow ≤ lastRow) :
    findHabitRow g habit startRow (lastRow - startRow + 1) = some r ↔
      (startRow ≤ r ∧ r ≤ lastRow ∧ cellAt g (r - 1) 0 = CellVal.str habit ∧
        ∀ r2, startRow ≤ r2 → r2 < r → cellAt g (r2 - 1) 0 ≠ CellVal.str habit) := by
  rw [findHabitRow_some_iff g habit (lastRow - startRow + 1) startRow r h1]
  constructor
  · intro ⟨a, b, c, d⟩; exact ⟨a, by omega, c, d⟩
  · intro ⟨a, b, c, d⟩; exact ⟨a, by omega, c, d⟩

/-- Witness for C4: on a concrete sheet the lookup of "Flossing" over the
window rows 1-2 returns row 2. -/
theorem findHabitRow_window_exact_first_witness :
    findHabitRow [[CellVal.date ⟨2026, 0, 5, 0⟩], [CellVal.str "Flossing"]]
      "Flossing" 1 (2 - 1 + 1) = some 2 :=
  (findHabitRow_window_exact_first
      [[CellVal.date ⟨2026, 0, 5, 0⟩], [CellVal.str "Flossing"]] 1 2 "Flossing" 2
      (by decide) (by decide)).mpr
    ⟨by decide, by decide, by decide,
     fun r2 ha hb => by
       have hr2 : r2 = 1 := by omega
       subst hr2
       decide⟩

/-- C9: For every ExtractionResult with a matched week anchor, habit matching
is independent per entry: an entry whose habit name is not found in the search
window is skipped without failing the overall operation or blocking the writes
of the other entries, and the returned summary string reports the count of
successfully updated habits together with the week identifier.  The count is
`countP` of the match test over the entries against the original sheet, so
each entry contributes according to its own lookup only. -/
theorem updateSheet_entries_independent (sheet : Sheet) (data : ExtractionData)
    (wsd : String) (startRow c0 : Nat)
    (h1 : data.week_start_date = some wsd) (h2 : wsd ≠ "")
    (h3 : findFirstDateMatch sheet.grid (parseMmDdYyyy wsd) = some (startRow, c0)) :
    (∃ g2 : Grid,
        updateSheet sheet (some data)
          = Except.ok ({ sheet with grid := g2 },
              "Success! Updated "
                ++ toString (data.data.countP (fun item =>
                     (findHabitRow sheet.grid item.habit startRow
                       (getLastRow sheet.grid - startRow + 1)).isSome))
                ++ " habits for week of " ++ wsd))
      ∧ ∀ (g : Grid) (n : Nat) (item : HabitEntry),
          findHabitRow g item.habit startRow (getLastRow sheet.grid - startRow + 1)
              = none →
          applyEntry startRow (getLastRow sheet.grid) (g, n) item = (g, n) := by
  constructor
  · refine ⟨(data.data.foldl (applyEntry startRow (getLastRow sheet.grid))
      (sheet.grid, 0)).1, ?_⟩
    rw [updateSheet_found sheet data wsd startRow c0 h1 h2 h3]
    rw [foldl_applyEntry_count startRow (getLastRow sheet.grid) sheet.grid
      data.data sheet.grid 0 (fun _ => rfl)]
    rw [Nat.zero_add]
  · intro g n item hf
    rw [applyEntry]; rw [show (g, n).1 = g from rfl, hf]

/-- Witness for C9: a two-entry result in which the second habit is absent
from the window still updates the first and reports one update. -/
theorem updateSheet_entries_independent_witness :
    ∃ g2 : Grid,
      updateSheet ⟨"Weekly View", [[CellVal.date ⟨2026, 0, 5, 0⟩], [CellVal.str "Flossing"]]⟩
          (some ⟨some "01/05/2026",
            [⟨"Flossing", some [JVal.jnum 1]⟩, ⟨"Missing", none⟩]⟩)
        = Except.ok
            ({ (⟨"Weekly View", [[CellVal.date ⟨2026, 0, 5, 0⟩], [CellVal.str "Flossing"]]⟩ : Sheet)
                with grid := g2 },
             "Success! Updated "
               ++ toString (List.countP (fun item =>
                    (findHabitRow [[CellVal.date ⟨2026, 0, 5, 0⟩], [CellVal.str "Flossing"]]
                      item.habit 1
                      (getLastRow [[CellVal.date ⟨2026, 0, 5, 0⟩], [CellVal.str "Flossing"]] - 1 + 1)).isSome)
                    [(⟨"Flossing", some [JVal.jnum 1]⟩ : HabitEntry), ⟨"Missing", none⟩])
               ++ " habits for week of " ++ "01/05/2026") :=
  (updateSheet_entries_independent
    ⟨"Weekly View", [[CellVal.date ⟨2026, 0, 5, 0⟩], [CellVal.str "Flossing"]]⟩
    ⟨some "01/05/2026", [⟨"Flossing", some [JVal.jnum 1]⟩, ⟨"Missing", none⟩]⟩
    "01/05/2026" 1 1 rfl (by decide) (by decide)).1

/-- C10: Whenever a week anchor is found at row R, updateSheet mutates only
cells in columns 3-9 of rows lying between R and the sheet's last populated
row (inclusive) in which an entry's habit label was matched; the label column,
any column outside 3-9, and every row above the anchor row are left unchanged
by the reconciliation step.  (Coordinates `r`, `c` below are 1-based; the
second conjunct confines every matched row to `[R, lastRow]`, so rows above
the anchor are never written.) -/
theorem updateSheet_frame_effect (sheet : Sheet) (data : ExtractionData)
    (wsd : String) (startRow c0 : Nat) (out : Sheet) (msg : String)
    (h1 : data.week_start_date = some wsd) (h2 : wsd ≠ "")
    (h3 : findFirstDateMatch sheet.grid (parseMmDdYyyy wsd) = some (startRow, c0))
    (h4 : updateSheet sheet (some data) = Except.ok (out, msg)) :
    (∀ r c, 1 ≤ r → 1 ≤ c →
        ((c < 3 ∨ 9 < c) ∨
          ∀ item ∈ data.data,
            findHabitRow sheet.grid item.habit startRow
                (getLastRow sheet.grid - startRow + 1) ≠ some r) →
        cellAt out.grid (r - 1) (c - 1) = cellAt sheet.grid (r - 1) (c - 1))
      ∧ ∀ (item : HabitEntry) (r : Nat),
          findHabitRow sheet.grid item.habit startRow
              (getLastRow sheet.grid - startRow + 1) = some r →
          startRow ≤ r ∧ r ≤ getLastRow sheet.grid := by
  have hspec := findFirstDateMatch_some_spec sheet.grid (parseMmDdYyyy wsd)
    startRow c0 h3
  have hstart1 : 1 ≤ startRow := hspec.1
  have hsl : startRow ≤ getLastRow sheet.grid := by
    have hne := cellHitsTarget_nonEmpty _ _ hspec.2.2.1
    have := getLastRow_ge_of_nonEmpty sheet.grid (startRow - 1) (c0 - 1) hne
    omega
  rw [updateSheet_found sheet data wsd startRow c0 h1 h2 h3] at h4
  have hout : out.grid
      = (data.data.foldl (applyEntry startRow (getLastRow sheet.grid))
          (sheet.grid, 0)).1 := by
    have hpair := Except.ok.inj h4
    rw [Prod.mk.injEq] at hpair
    rw [← hpair.1]
  constructor
  · intro r c hr hc hcond
    rw [hout]
    apply foldl_applyEntry_frame startRow (getLastRow sheet.grid) sheet.grid
      hstart1 (r - 1) (c - 1) data.data sheet.grid 0 (fun _ => rfl) rfl
    rcases hcond with h | h
    · left; omega
    · right
      intro item hit hcontra
      have hrw : (r - 1) + 1 = r := by omega
      rw [hrw] at hcontra
      exact h item hit hcontra
  · intro item r hf
    have := findHabitRow_bounds sheet.grid item.habit _ _ _ hf
    omega

/-- Witness for C10: on the concrete two-row sheet the matched habit row 2 is
confirmed to lie between the anchor row and the last populated row. -/
theorem updateSheet_frame_effect_witness :
    1 ≤ 2 ∧ 2 ≤ getLastRow [[CellVal.date ⟨2026, 0, 5, 0⟩], [CellVal.str "Flossing"]] :=
  (updateSheet_frame_effect
    ⟨"Weekly View", [[CellVal.date ⟨2026, 0, 5, 0⟩], [CellVal.str "Flossing"]]⟩
    ⟨some "01/05/2026", [⟨"Flossing", some [JVal.jnum 1]⟩]⟩ "01/05/2026" 1 1
    ⟨"Weekly View",
      [[CellVal.date ⟨2026, 0, 5, 0⟩],
       [CellVal.str "Flossing", CellVal.empty, CellVal.num 1, CellVal.empty,
        CellVal.empty, CellVal.empty, CellVal.empty, CellVal.empty, CellVal.empty]]⟩
    "Success! Updated 1 habits for week of 01/05/2026"
    rfl (by decide) (by decide) rfl).2
    ⟨"Flossing", some [JVal.jnum 1]⟩ 2 (by decide)

/-! ## List lemmas for the sanitizer and normalizer -/

theorem dropWhile_append_ne_nil {α : Type} (p : α → Bool) :
    ∀ (a b : List α), a.dropWhile p ≠ [] →
      (a ++ b).dropWhile p = a.dropWhile p ++ b := by
  intro a
  induction a with
  | nil => intro b h; exact absurd rfl h
  | cons x xs ih =>
    intro b h
    by_cases hx : p x
    · rw [List.cons_append, List.dropWhile_cons_of_pos hx,
        List.dropWhile_cons_of_pos hx]
      exact ih b (by rwa [List.dropWhile_cons_of_pos hx] at h)
    · rw [List.cons_append, List.dropWhile_cons_of_neg hx,
        List.dropWhile_cons_of_neg hx, List.cons_append]

theorem dropWhile_head_false {α : Type} (p : α → Bool) :
    ∀ (l : List α) (x : α) (xs : List α), l.dropWhile p = x :: xs → p x = false := by
  intro l
  induction l with
  | nil => intro x xs h; cases h
  | cons a rest ih =>
    intro x xs h
    by_cases ha : p a
    · rw [List.dropWhile_cons_of_pos ha] at h
      exact ih x xs h
    · rw [List.dropWhile_cons_of_neg ha] at h
      cases h
      exact Bool.eq_false_iff.mpr ha

theorem isPrefixOf_append_self (a b : List Char) : a.isPrefixOf (a ++ b) = true := by
  induction a with
  | nil => cases b <;> rfl
  | cons x xs ih => simp [List.isPrefixOf, ih]

theorem takeWhile_all_append (p : Char → Bool) :
    ∀ (a : List Char) (b0 : Char) (bs : List Char), a.all p = true → p b0 = false →
      (a ++ b0 :: bs).takeWhile p = a := by
  intro a
  induction a with
  | nil =>
    intro b0 bs _ hb
    rw [List.nil_append,
      List.takeWhile_cons_of_neg (by rw [hb]; exact Bool.false_ne_true)]
  | cons x xs ih =>
    intro b0 bs ha hb
    rw [List.all_cons, Bool.and_eq_true] at ha
    rw [List.cons_append, List.takeWhile_cons_of_pos ha.1, ih b0 bs ha.2 hb]

theorem dropWhile_all_append (p : Char → Bool) :
    ∀ (a : List Char) (b0 : Char) (bs : List Char), a.all p = true → p b0 = false →
      (a ++ b0 :: bs).dropWhile p = b0 :: bs := by
  intro a
  induction a with
  | nil =>
    intro b0 bs _ hb
    rw [List.nil_append,
      List.dropWhile_cons_of_neg (by rw [hb]; exact Bool.false_ne_true)]
  | cons x xs ih =>
    intro b0 bs ha hb
    rw [List.all_cons, Bool.and_eq_true] at ha
    rw [List.cons_append, List.dropWhile_cons_of_pos ha.1, ih b0 bs ha.2 hb]

/-! ## Fence-stripping lemmas -/

theorem stripFenceJson_cons_ne (x : Char) (l : List Char)
    (h : (x == btick) = false) : stripFenceJson (x :: l) = x :: l := by
  rcases l with _ | ⟨b, l2⟩
  · rfl
  rcases l2 with _ | ⟨c, l3⟩
  · rfl
  rcases l3 with _ | ⟨d, l4⟩
  · rfl
  rcases l4 with _ | ⟨e, l5⟩
  · rfl
  rcases l5 with _ | ⟨f, l6⟩
  · rfl
  rcases l6 with _ | ⟨g2, l7⟩
  · rfl
  simp [stripFenceJson, h]

theorem stripFenceOpen_cons_ne (x : Char) (l : List Char)
    (h : (x == btick) = false) : stripFenceOpen (x :: l) = x :: l := by
  rcases l with _ | ⟨b, l2⟩
  · rfl
  rcases l2 with _ | ⟨c, l3⟩
  · rfl
  simp [stripFenceOpen, h]

theorem stripFenceClose_id_of (l : List Char) (h : endsWithFence l = false) :
    stripFenceClose l = l := by
  rw [stripFenceClose]
  rw [endsWithFence] at h
  rcases hr : l.reverse with _ | ⟨a, l2⟩
  · rfl
  rcases l2 with _ | ⟨b, l3⟩
  · rfl
  rcases l3 with _ | ⟨c, l4⟩
  · rfl
  rw [hr] at h
  have h2 : (a == btick && b == btick && c == btick) = false := h
  show (if (a == btick && b == btick && c == btick) = true then l4.reverse else l) = l
  rw [h2]
  simp

theorem stripFenceJson_open_nl (rest : List Char) :
    stripFenceJson (btick :: btick :: btick :: '\n' :: rest)
      = btick :: btick :: btick :: '\n' :: rest := by
  rcases rest with _ | ⟨a, r2⟩
  · rfl
  rcases r2 with _ | ⟨b, r3⟩
  · rfl
  rcases r3 with _ | ⟨c, r4⟩
  · rfl
  simp [stripFenceJson]

theorem stripFenceJson_fence (rest : List Char) :
    stripFenceJson (btick :: btick :: btick :: 'j' :: 's' :: 'o' :: 'n' :: rest)
      = rest.dropWhile isJsWs := by
  simp [stripFenceJson]

theorem stripFenceOpen_fence (rest : List Char) :
    stripFenceOpen (btick :: btick :: btick :: rest) = rest.dropWhile isJsWs := by
  simp [stripFenceOpen]

theorem stripFenceClose_fence (l : List Char) :
    stripFenceClose (l ++ ('\n' :: btick :: btick :: btick :: []))
      = l ++ ['\n'] := by
  rw [stripFenceClose]
  have hrev : (l ++ ('\n' :: btick :: btick :: btick :: [])).reverse
      = btick :: btick :: btick :: ('\n' :: l.reverse) := by simp
  rw [hrev]
  simp

theorem trimRightL_append_nl (l : List Char) :
    trimRightL (l ++ ['\n']) = trimRightL l := by
  have hrev : (l ++ ['\n']).reverse = '\n' :: l.reverse := by simp
  rw [trimRightL, hrev, List.dropWhile_cons_of_pos (by decide), trimRightL]

theorem jsTrimL_dropWhile (t : List Char) :
    jsTrimL t = trimRightL (t.dropWhile isJsWs) := rfl

theorem head_not_btick (t x : Char) (l xs : List Char)
    (ht1 : (x :: l).dropWhile isJsWs = t :: xs)
    (hbt : (t == btick) = false) : (x == btick) = false := by
  by_cases hw : isJsWs x
  · exact beq_eq_false_iff_ne.mpr (fun he => by
      rw [he] at hw
      exact absurd hw (by decide))
  · rw [List.dropWhile_cons_of_neg hw] at ht1
    obtain ⟨rfl, _⟩ : x = t ∧ l = xs := by
      cases ht1; exact ⟨rfl, rfl⟩
    exact hbt

/-- C5: For every inner JSON text t, the response sanitization step applied to
the ```` ```json ````-fenced form, to the plain ```` ``` ````-fenced form, and
to the raw t all produce the identical sanitized text (hence the identical
parsed object).  The hypotheses say t is a plausible JSON payload: it has a
non-whitespace character, its first non-whitespace character is not a backtick
and it does not end in a backtick fence of its own — every JSON value
satisfies them. -/
theorem responseSanitizer_fence_insensitive (t : List Char)
    (h1 : t.dropWhile isJsWs ≠ [])
    (h2 : (t.dropWhile isJsWs).head? ≠ some btick)
    (h3 : endsWithFence t = false) :
    cleanTextL (("```json\n").toList ++ t ++ ("\n```").toList) = jsTrimL t
      ∧ cleanTextL (("```\n").toList ++ t ++ ("\n```").toList) = jsTrimL t
      ∧ cleanTextL t = jsTrimL t := by
  obtain ⟨x, xs, ht1⟩ : ∃ x xs, t.dropWhile isJsWs = x :: xs := by
    rcases h : t.dropWhile isJsWs with _ | ⟨x, xs⟩
    · exact absurd h h1
    · exact ⟨x, xs, rfl⟩
  have hxws : isJsWs x = false := dropWhile_head_false isJsWs t x xs ht1
  have hxbt : (x == btick) = false := by
    rw [ht1] at h2
    simp only [List.head?_cons, ne_eq, Option.some.injEq] at h2
    exact beq_eq_false_iff_ne.mpr h2
  have hxws2 : ¬ isJsWs x = true := by rw [hxws]; exact Bool.false_ne_true
  have hjson : cleanTextL (("```json\n").toList ++ t ++ ("\n```").toList)
      = jsTrimL t := by
    rw [show ("```json\n").toList ++ t ++ ("\n```").toList
        = btick :: btick :: btick :: 'j' :: 's' :: 'o' :: 'n'
            :: ('\n' :: (t ++ ('\n' :: btick :: btick :: btick :: []))) from rfl]
    rw [cleanTextL, stripFenceJson_fence]
    rw [List.dropWhile_cons_of_pos (by decide)]
    rw [dropWhile_append_ne_nil isJsWs t _ h1, ht1]
    rw [List.cons_append, stripFenceOpen_cons_ne x _ hxbt, ← List.cons_append]
    rw [stripFenceClose_fence (x :: xs)]
    rw [jsTrimL_dropWhile, jsTrimL_dropWhile]
    rw [List.cons_append, List.dropWhile_cons_of_neg hxws2, ht1]
    rw [← List.cons_append, trimRightL_append_nl]
  have hplain : cleanTextL (("```\n").toList ++ t ++ ("\n```").toList)
      = jsTrimL t := by
    rw [show ("```\n").toList ++ t ++ ("\n```").toList
        = btick :: btick :: btick
            :: ('\n' :: (t ++ ('\n' :: btick :: btick :: btick :: []))) from rfl]
    rw [cleanTextL, stripFenceJson_open_nl, stripFenceOpen_fence]
    rw [List.dropWhile_cons_of_pos (by decide)]
    rw [dropWhile_append_ne_nil isJsWs t _ h1, ht1]
    rw [stripFenceClose_fence (x :: xs)]
    rw [jsTrimL_dropWhile, jsTrimL_dropWhile]
    rw [List.cons_append, List.dropWhile_cons_of_neg hxws2, ht1]
    rw [← List.cons_append, trimRightL_append_nl]
  refine ⟨hjson, hplain, ?_⟩
  cases t with
  | nil => exact absurd rfl h1
  | cons c rest =>
    have hcbt : (c == btick) = false := head_not_btick x c rest xs ht1 hxbt
    rw [cleanTextL, stripFenceJson_cons_ne c rest hcbt,
      stripFenceOpen_cons_ne c rest hcbt, stripFenceClose_id_of _ h3]

/-- Witness for C5 at the concrete JSON text `17`. -/
theorem responseSanitizer_fence_insensitive_witness :
    cleanTextL (("```json\n").toList ++ ("17").toList ++ ("\n```").toList)
      = jsTrimL (("17").toList) :=
  (responseSanitizer_fence_insensitive (("17").toList) (by decide) (by decide)
    (by decide)).1

/-! ## Image-normalization lemmas -/

theorem getType_ne_string (v : JSVal) (h : ∀ s : String, v ≠ JSVal.jstr s) :
    getType v ≠ "string" := by
  cases v <;> simp [getType]
  case jstr s => exact absurd rfl (h s)

theorem unwrapImage_not_string (img : JSVal)
    (hb : ∀ s : String, img ≠ JSVal.jstr s)
    (h2 : ∀ s : String, getProp img "base64" ≠ JSVal.jstr s)
    (h3 : ∀ s : String, getProp img "data" ≠ JSVal.jstr s) :
    ∀ s : String, unwrapImage img ≠ JSVal.jstr s := by
  intro s
  cases img with
  | jstr s2 => exact absurd rfl (hb s2)
  | jnum n => simp [unwrapImage, jsTypeof]
  | jbool b => simp [unwrapImage, jsTypeof]
  | jnull => simp [unwrapImage, jsTypeof, isNullVal]
  | jundefined => simp [unwrapImage, jsTypeof]
  | jarr xs => simp [unwrapImage, jsTypeof, isNullVal, getProp, jsOr, jsTruthy]
  | jobj fs =>
    rw [unwrapImage]
    rw [if_pos (by simp [jsTypeof, isNullVal])]
    rw [jsOr]
    by_cases hp : jsTruthy (getProp (JSVal.jobj fs) "base64") = true
    · rw [if_pos hp]; exact h2 s
    · rw [if_neg hp, jsOr]
      by_cases hq : jsTruthy (getProp (JSVal.jobj fs) "data") = true
      · rw [if_pos hq]; exact h3 s
      · rw [if_neg hq]; simp

theorem normalizeImage_not_string (img : JSVal)
    (h1 : ∀ s : String, img ≠ JSVal.jstr s)
    (h2 : ∀ s : String, getProp img "base64" ≠ JSVal.jstr s)
    (h3 : ∀ s : String, getProp img "data" ≠ JSVal.jstr s) :
    normalizeImage img
      = Except.error ("base64Image has wrong type: " ++ getType (unwrapImage img)
          ++ " instead of string") := by
  have hb := unwrapImage_not_string img h1 h2 h3
  rcases hu : unwrapImage img with s | n | b | _ | _ | xs | fs
  · exact absurd hu (hb s)
  all_goals rw [normalizeImage, hu]

/-- C7: For every image value that is neither a string nor an object wrapping
a string under a base64 or data key (e.g., a number or an array), normalization
fails with an InvalidPayload error that reports the offending runtime type,
and the pipeline does not proceed to habit loading or extraction: for every
analysis stage and sheet whatsoever, the response is the error text and the
sheet is untouched. -/
theorem doPost_rejects_nonstring_image (img : JSVal)
    (h1 : ∀ s : String, img ≠ JSVal.jstr s)
    (h2 : ∀ s : String, getProp img "base64" ≠ JSVal.jstr s)
    (h3 : ∀ s : String, getProp img "data" ≠ JSVal.jstr s) :
    (∀ (sheet : Sheet) (analyze : String → Except String (Option ExtractionData)),
        runPipeline sheet img analyze
          = ("Error: Error: " ++ ("base64Image has wrong type: "
                ++ getType (unwrapImage img) ++ " instead of string"), sheet))
      ∧ getType (unwrapImage img) ≠ "string" := by
  constructor
  · intro sheet analyze
    rw [runPipeline, normalizeImage_not_string img h1 h2 h3]
  · exact getType_ne_string _ (unwrapImage_not_string img h1 h2 h3)

/-- Witness for C7 at the concrete payload `5` (a number). -/
theorem doPost_rejects_nonstring_image_witness :
    runPipeline ⟨"Weekly View", [[CellVal.str "x"]]⟩ (JSVal.jnum 5)
        (fun _ => Except.error "unused")
      = ("Error: Error: " ++ ("base64Image has wrong type: "
            ++ getType (unwrapImage (JSVal.jnum 5)) ++ " instead of string"),
         ⟨"Weekly View", [[CellVal.str "x"]]⟩) :=
  (doPost_rejects_nonstring_image (JSVal.jnum 5)
    (fun s h => by simp at h) (fun s h => by simp [getProp] at h)
    (fun s h => by simp [getProp] at h)).1 ⟨"Weekly View", [[CellVal.str "x"]]⟩ _

/-- C6 counterexample: the claim fails at the base64 string `""`.  The bare
empty string normalizes successfully to `""`, but the same string wrapped
under the `base64` key is falsy in the unwrap chain
`img.base64 || img.data || null`, so the wrapped form fails with the
wrong-type error — the outputs differ. -/
theorem imageNormalizer_empty_string_counterexample :
    normalizeImage (JSVal.jstr "") = Except.ok ""
      ∧ normalizeImage (JSVal.jobj [("base64", JSVal.jstr "")])
          = Except.error "base64Image has wrong type: null instead of string"
      ∧ normalizeImage (JSVal.jstr "")
          ≠ normalizeImage (JSVal.jobj [("base64", JSVal.jstr "")]) := by
  refine ⟨rfl, rfl, ?_⟩
  intro hcontra
  rw [show normalizeImage (JSVal.jstr "") = Except.ok "" from rfl] at hcontra
  rw [show normalizeImage (JSVal.jobj [("base64", JSVal.jstr "")])
      = Except.error "base64Image has wrong type: null instead of string"
      from rfl] at hcontra
  cases hcontra

/-- C6 (amended): For every non-empty base64 string s, image-payload
normalization produces the same normalized output whether the request's image
field is the bare string s or an object wrapping s under the key base64 or
the key data; in all cases a leading data-URI prefix of the form
`data:image/<subtype>;base64,` (subtype characters `[a-zA-Z0-9.+-]`) is
stripped and surrounding whitespace is trimmed. -/
theorem imageNormalizer_wrapper_equiv (s : String) (h : s ≠ "") :
    normalizeImage (JSVal.jobj [("base64", JSVal.jstr s)])
        = Except.ok (jsTrim (dropDataUri s))
      ∧ normalizeImage (JSVal.jobj [("data", JSVal.jstr s)])
        = Except.ok (jsTrim (dropDataUri s))
      ∧ normalizeImage (JSVal.jstr s) = Except.ok (jsTrim (dropDataUri s))
      ∧ ∀ (sub rest : List Char), sub ≠ [] → sub.all isSubtypeChar = true →
          dropDataUriL (("data:image/").toList
              ++ (sub ++ ((";base64,").toList ++ rest)))
            = rest := by
  have hs : (s == "") = false := beq_eq_false_iff_ne.mpr h
  have htr : jsTruthy (JSVal.jstr s) = true := by
    show (!(s == "")) = true
    rw [hs]
    rfl
  have hu1 : unwrapImage (JSVal.jobj [("base64", JSVal.jstr s)]) = JSVal.jstr s := by
    have hc : (jsTypeof (JSVal.jobj [("base64", JSVal.jstr s)]) == "object"
        && !isNullVal (JSVal.jobj [("base64", JSVal.jstr s)])) = true := rfl
    rw [unwrapImage, if_pos hc, jsOr,
      show getProp (JSVal.jobj [("base64", JSVal.jstr s)]) "base64" = JSVal.jstr s
        from rfl, if_pos htr]
  have hu2 : unwrapImage (JSVal.jobj [("data", JSVal.jstr s)]) = JSVal.jstr s := by
    have hc : (jsTypeof (JSVal.jobj [("data", JSVal.jstr s)]) == "object"
        && !isNullVal (JSVal.jobj [("data", JSVal.jstr s)])) = true := rfl
    rw [unwrapImage, if_pos hc, jsOr,
      show getProp (JSVal.jobj [("data", JSVal.jstr s)]) "base64" = JSVal.jundefined
        from rfl]
    rw [if_neg (by decide), jsOr,
      show getProp (JSVal.jobj [("data", JSVal.jstr s)]) "data" = JSVal.jstr s
        from rfl, if_pos htr]
  have hu3 : unwrapImage (JSVal.jstr s) = JSVal.jstr s := by
    have hc : ¬ ((jsTypeof (JSVal.jstr s) == "object"
        && !isNullVal (JSVal.jstr s)) = true) := Bool.false_ne_true
    rw [unwrapImage, if_neg hc]
  refine ⟨by rw [normalizeImage, hu1], by rw [normalizeImage, hu2],
    by rw [normalizeImage, hu3], ?_⟩
  intro sub rest hne hall
  rw [dropDataUriL, if_pos (isPrefixOf_append_self _ _)]
  rw [show (11 : Nat) = ("data:image/").toList.length from rfl, List.drop_left]
  rw [show sub ++ ((";base64,").toList ++ rest)
      = sub ++ (';' :: (("base64,").toList ++ rest)) from rfl]
  rw [takeWhile_all_append isSubtypeChar sub ';' _ hall (by decide)]
  rw [dropWhile_all_append isSubtypeChar sub ';' _ hall (by decide)]
  have hsubE : sub.isEmpty = false := by
    cases sub
    · exact absurd rfl hne
    · rfl
  have hcond : (!sub.isEmpty
      && ((";base64,").toList).isPrefixOf (';' :: (("base64,").toList ++ rest)))
      = true := by
    rw [hsubE,
      show (';' :: (("base64,").toList ++ rest))
        = ((";base64,").toList ++ rest) from rfl,
      isPrefixOf_append_self]
    rfl
  rw [if_pos hcond]
  rfl

/-- Witness for the C6 amended theorem at the concrete payload `"abc"`. -/
theorem imageNormalizer_wrapper_equiv_witness :
    normalizeImage (JSVal.jstr "abc") = Except.ok (jsTrim (dropDataUri "abc")) :=
  (imageNormalizer_wrapper_equiv "abc" (by decide)).2.2.1

theorem except_bind_ok {e a b : Type} (x : a) (f : a → Except e b) :
    (Except.ok x >>= f) = f x := rfl

theorem except_bind_error {e a b : Type} (m : e) (f : a → Except e b) :
    ((Except.error m : Except e a) >>= f) = Except.error m := rfl

/-- C8: If the model's response body contains no application-level error
object but lacks the candidates/content/parts/text path, callGemini
(VisionExtractionClient) fails with an error (the spec's
ExtractionServiceMalformed kind) instead of returning text. -/
theorem callGemini_malformed_fails (json : JSVal)
    (h1 : hasGeminiError json = false)
    (h2 : hasGeminiTextPath json = false) :
    ∃ msg, callGeminiText json = Except.error msg := by
  rcases he : jsGetProp json "error" with e | err
  · refine ⟨e, ?_⟩
    simp [callGeminiText, geminiExtractText, he, except_bind_error, Except.map]
  · have htr : jsTruthy err = false := by
      have h1b := h1
      rw [hasGeminiError, he] at h1b
      exact h1b
    rcases ht : geminiTextNode json with m | v
    · refine ⟨m, ?_⟩
      simp [callGeminiText, geminiExtractText, he, htr, ht, except_bind_ok,
        except_bind_error, Except.map]
    · rcases v with s2 | n | b | _ | _ | xs | fs
      · exfalso
        rw [hasGeminiTextPath, ht] at h2
        have hcontra : (true : Bool) = false := h2
        cases hcontra
      all_goals
        refine ⟨"TypeError: textResponse.replace is not a function", ?_⟩
      all_goals
        simp [callGeminiText, geminiExtractText, he, htr, ht, except_bind_ok,
          except_bind_error, Except.map]

/-- Witness for C8 at the concrete response body `{}` (an empty object). -/
theorem callGemini_malformed_fails_witness :
    ∃ msg, callGeminiText (JSVal.jobj []) = Except.error msg :=
  callGemini_malformed_fails (JSVal.jobj []) (by decide) (by decide)
